import Mathlib

/-!
Shallow embedding of the Sure.Financial frontend (TypeScript) for checking the
statement-parsing specification.  Definitions are translated from the source
files under the repository (frontend/types/index.ts, frontend/lib/api.ts,
frontend/components/FileUpload.tsx, frontend/components/ResultsDisplay.tsx,
and the statements-cache module).  Confidence values are modelled as rationals,
file sizes as naturals, timestamps (ms) as integers.
-/

namespace SureFinancial

/-! ## Data model, from frontend/types/index.ts

In the TypeScript interfaces each field object has a required
`confidence: number`, but `mapDbToParseResult` builds field objects of the
shape `{ value: ... }` with no confidence at runtime (cast `as ParseResult`),
so the runtime-faithful model makes confidence optional. -/

/-- A generic extracted field: value, confidence, raw source text
(DateField / AmountField / the card_number object in types/index.ts). -/
structure FieldM where
  value : Option String
  confidence : Option ℚ
  raw_text : Option String := none
deriving Repr, DecidableEq

/-- confidence_scores as constructed by the frontend code: the overall score
(per-field sub-scores are optional in the interface and never constructed by
the mapped/mocked code paths modelled here). -/
structure CScores where
  overall : ℚ
deriving Repr, DecidableEq

/-- One transaction line: date, merchant, amount (types/index.ts). -/
structure TransactionM where
  date : String
  merchant : String
  amount : String
deriving Repr, DecidableEq

/-- ParseResult as used by the frontend (types/index.ts), restricted to the
fields the verified code paths read or write. -/
structure ParseResultM where
  job_id : String := ""
  status : String := ""
  card_issuer : Option String := none
  card_number : Option FieldM := none
  statement_date : Option FieldM := none
  payment_due_date : Option FieldM := none
  total_amount_due : Option FieldM := none
  confidence_scores : Option CScores := none
  error : Option String := none
  created_at : Option String := none
deriving Repr, DecidableEq, Inhabited

/-- The four field slots of a ParseResult that carry a FieldM. -/
def resultFields (r : ParseResultM) : List (Option FieldM) :=
  [r.card_number, r.statement_date, r.payment_due_date, r.total_amount_due]

/-! ## JavaScript string truthiness helpers

In JS, `undefined`, `null` and the empty string are falsy; `x || y` yields x
when x is truthy, else y.  An absent/null string is `none`, so a chain
`a || b || c` that feeds a truthiness test is the first non-empty entry. -/

/-- JS truthiness of an optional string: kept only when present and
non-empty. -/
def strTruthy : Option String → Option String
  | some s => if s = "" then none else some s
  | none => none

/-- First truthy entry of a JS `a || b || ...` chain of strings. -/
def firstTruthy (xs : List (Option String)) : Option String :=
  xs.findSome? strTruthy

/-! ## FileUpload.onDrop, from frontend/components/FileUpload.tsx (lines 21-49)

The handler receives the accepted-file list; an empty list, a non-PDF MIME
type, or a size above 10 MB invokes the error callback and returns without
contacting the API; otherwise onUploadStart fires and uploadStatement(file)
is called. -/

/-- The File attributes onDrop inspects: MIME type and byte size. -/
structure FileInfo where
  type : String
  size : ℕ
deriving Repr, DecidableEq

/-- Observable outcome of onDrop before the network responds: either the
error callback fires with a message, or an upload request for the file is
issued (onUploadStart followed by uploadStatement). -/
inductive DropAction where
  | error (msg : String)
  | upload (f : FileInfo)
deriving Repr, DecidableEq

/-- onDrop from FileUpload.tsx: validate emptiness, MIME type, size cap,
then upload. -/
def onDrop (acceptedFiles : List FileInfo) : DropAction :=
  match acceptedFiles with
  | [] => .error "Please select a valid PDF file"
  | file :: _ =>
    if file.type ≠ "application/pdf" then
      .error "Only PDF files are supported"
    else if file.size > 10 * 1024 * 1024 then
      .error "File size must be less than 10MB"
    else
      .upload file

/-! ## Transaction rendering, from the results display (unnamed/part_000
lines 320-347): `result.transactions.map((t, idx) => <tr>...</tr>)` renders
one row per transaction, keyed by index, with no sorting. -/

/-- The cells of one rendered transaction table row: date, merchant, amount. -/
def transactionRow (t : TransactionM) : String × String × String :=
  (t.date, t.merchant, t.amount)

/-- The rendered transaction table body: one row per transaction, in index
order of the transactions list. -/
def renderTransactionRows (ts : List TransactionM) : List (String × String × String) :=
  ts.map transactionRow

/-! ## Statements module (unnamed part: lib/statements.ts)

MOCK_STATEMENTS (lines 7-63): five fallback statements used when the backend
is unreachable.  Their created_at values are Date.now()-relative ISO strings;
the clock-to-ISO conversion is abstracted as a parameter isoAt mapping the
millisecond offset before now to the rendered string. -/

/-- MOCK_STATEMENTS from the statements module: five completed statements
with confidences written on a 0-100 scale (95, 90, 92, ...). -/
def MOCK_STATEMENTS (isoAt : ℕ → String) : List ParseResultM :=
  [ { job_id := "job_1", status := "completed", card_issuer := some "Axis Bank",
      card_number := some ⟨some "9410", some 95, none⟩,
      statement_date := some ⟨some "2024-08-16", some 90, none⟩,
      total_amount_due := some ⟨some "INR 40,491.00", some 92, none⟩,
      payment_due_date := some ⟨some "2024-10-05", some 90, none⟩,
      confidence_scores := some ⟨94⟩, created_at := some (isoAt 0) },
    { job_id := "job_2", status := "completed", card_issuer := some "HDFC Bank",
      card_number := some ⟨some "4567", some 98, none⟩,
      statement_date := some ⟨some "2024-07-20", some 95, none⟩,
      total_amount_due := some ⟨some "INR 12,350.00", some 96, none⟩,
      payment_due_date := some ⟨some "2024-08-15", some 97, none⟩,
      confidence_scores := some ⟨97⟩, created_at := some (isoAt 86400000) },
    { job_id := "job_3", status := "completed", card_issuer := some "ICICI Bank",
      card_number := some ⟨some "7890", some 92, none⟩,
      statement_date := some ⟨some "2024-09-01", some 93, none⟩,
      total_amount_due := some ⟨some "INR 8,745.50", some 91, none⟩,
      payment_due_date := some ⟨some "2024-09-25", some 94, none⟩,
      confidence_scores := some ⟨92⟩, created_at := some (isoAt 172800000) },
    { job_id := "job_4", status := "completed", card_issuer := some "SBI Card",
      card_number := some ⟨some "1234", some 96, none⟩,
      statement_date := some ⟨some "2024-08-05", some 97, none⟩,
      total_amount_due := some ⟨some "INR 22,680.75", some 95, none⟩,
      payment_due_date := some ⟨some "2024-08-28", some 98, none⟩,
      confidence_scores := some ⟨96⟩, created_at := some (isoAt 259200000) },
    { job_id := "job_5", status := "completed", card_issuer := some "Axis Bank",
      card_number := some ⟨some "5678", some 94, none⟩,
      statement_date := some ⟨some "2024-07-10", some 91, none⟩,
      total_amount_due := some ⟨some "INR 15,320.25", some 93, none⟩,
      payment_due_date := some ⟨some "2024-08-05", some 92, none⟩,
      confidence_scores := some ⟨93⟩, created_at := some (isoAt 345600000) } ]

/-- All confidence values carried by a ParseResult: each present field's
confidence and confidence_scores.overall. -/
def confidencesOf (r : ParseResultM) : List ℚ :=
  ((resultFields r).filterMap (fun f => f.bind FieldM.confidence)) ++
    ((r.confidence_scores.map CScores.overall).toList)

/-- ResultsDisplay.tsx converts a stored confidence to its displayed
percentage by multiplying by 100 (e.g. line 56:
`((result.confidence_scores?.overall || 0) * 100).toFixed(0)`). -/
def displayPercent (confidence : ℚ) : ℚ := confidence * 100

/-! ## mapDbToParseResult, from the statements module (lines 73-115)

The MongoDB document shape it reads.  JS dynamic access is modelled with
Option fields; an absent or empty raw_data object (the
`Object.keys(rd).length > 0` test fails) is modelled as `none`.  The nested
`d.statement_date` may be a plain string or an object with a `formatted`
member; both access paths get their own slot. -/

/-- doc.confidence_scores in the nested 'results'-collection shape. -/
structure DocConf where
  overall : Option ℚ := none
  average : Option ℚ := none
deriving Repr, DecidableEq

/-- doc.raw_data: a previously saved raw ParseResult, passed through by
branch 1 of mapDbToParseResult. -/
structure RawData where
  job_id : Option String := none
  status : Option String := none
  card_issuer : Option String := none
  card_number : Option FieldM := none
  statement_date : Option FieldM := none
  payment_due_date : Option FieldM := none
  total_amount_due : Option FieldM := none
  confidence_scores : Option CScores := none
  created_at : Option String := none
deriving Repr, DecidableEq

/-- doc.data: the nested 'results'-collection payload read by branch 2. -/
structure DocData where
  card_number : Option String := none
  statement_period_end_date : Option String := none
  statement_date_formatted : Option String := none
  statement_date_plain : Option String := none
  payment_due_date_formatted : Option String := none
  payment_due_date_raw : Option String := none
  total_amount_due_raw : Option String := none
  total_amount_due_amount : Option String := none
  card_issuer : Option String := none
deriving Repr, DecidableEq

/-- A MongoDB result document as read by mapDbToParseResult. -/
structure DbDoc where
  mongoId : Option String := none
  job_id : Option String := none
  status : Option String := none
  card_number : Option String := none
  due_date : Option String := none
  total_amount_due : Option String := none
  card_issuer : Option String := none
  issuer : Option String := none
  overall_confidence : Option ℚ := none
  raw_data : Option RawData := none
  data : Option DocData := none
  confidence_scores : Option DocConf := none
  created_at : Option String := none
deriving Repr, DecidableEq

/-- Branch-2 field construction: `v ? { value: String(v) } : undefined` -
a field object (with no confidence member) only when the value is truthy. -/
def mkValueField (v : Option String) : Option FieldM :=
  (strTruthy v).map (fun s => { value := some s, confidence := none })

/-- mapDbToParseResult from the statements module.  nowIso stands for the
`new Date().toISOString()` default for created_at. -/
def mapDbToParseResult (nowIso : String) (doc : DbDoc) : ParseResultM :=
  match doc.raw_data with
  | some rd =>
    -- branch 1: backend saved a raw ParseResult; prefer it, passing the
    -- field objects through unchanged
    { job_id := (firstTruthy [doc.mongoId, rd.job_id, doc.job_id]).getD ""
      status := (firstTruthy [rd.status]).getD "completed"
      card_issuer := some ((firstTruthy [rd.card_issuer]).getD "Unknown")
      card_number := rd.card_number
      statement_date := rd.statement_date
      payment_due_date := rd.payment_due_date
      total_amount_due := rd.total_amount_due
      confidence_scores := rd.confidence_scores
      created_at := some ((firstTruthy [rd.created_at, doc.created_at]).getD nowIso) }
  | none =>
    -- branch 2: nested 'results'-collection document
    let d := doc.data.getD {}
    let cs := doc.confidence_scores.getD {}
    let cardNumberVal : Option String :=
      match strTruthy d.card_number with
      | some s => some s
      | none => doc.card_number
    let statementDateVal := firstTruthy
      [d.statement_period_end_date, d.statement_date_formatted, d.statement_date_plain]
    let paymentDueVal := firstTruthy
      [d.payment_due_date_formatted, d.payment_due_date_raw, doc.due_date]
    let totalAmountVal := firstTruthy
      [d.total_amount_due_raw, d.total_amount_due_amount, doc.total_amount_due]
    let overall := (cs.overall.or cs.average).or doc.overall_confidence
    { job_id := (firstTruthy [doc.mongoId, doc.job_id]).getD ""
      status := (firstTruthy [doc.status]).getD "completed"
      card_issuer := some ((firstTruthy [d.card_issuer, doc.card_issuer, doc.issuer]).getD "Unknown")
      card_number := mkValueField cardNumberVal
      statement_date := mkValueField statementDateVal
      payment_due_date := mkValueField paymentDueVal
      total_amount_due := mkValueField totalAmountVal
      confidence_scores := overall.map (fun o => ⟨o⟩)
      created_at := some ((firstTruthy [doc.created_at]).getD nowIso) }

/-- The Field invariant claimed by the spec: confidence equals 0 iff the
value is null. -/
def fieldInv (f : FieldM) : Prop := f.confidence = some 0 ↔ f.value = none

instance (f : FieldM) : Decidable (fieldInv f) := by
  unfold fieldInv; infer_instance

/-! ## The statements cache (statements module, lines 65-70 and 120-191)

`statementsCache` is module-level mutable state `{ data, timestamp }`;
the functions below are its state-passing embedding.  Timestamps are
Date.now() milliseconds. -/

/-- The statements cache: the cached statement list (null before the first
successful population) and the timestamp of the last write. -/
structure StmtCache where
  data : Option (List ParseResultM)
  timestamp : ℤ
deriving Repr, DecidableEq

/-- CACHE_TTL = 10000 ms (10 seconds). -/
def CACHE_TTL : ℤ := 10000

/-- Outcome of the axios GET of /results: the resolved document list, or any
rejection (network error, non-2xx, ...).  A non-array response body is the
success case with an empty document list (the code normalizes it with
Array.isArray). -/
inductive FetchOutcome where
  | success (docs : List DbDoc)
  | failure
deriving Repr, DecidableEq

/-- What a call to getAllSavedStatements produces: the resolved statement
list, the cache state after the call, and whether a network request was
issued. -/
structure FetchResult where
  statements : List ParseResultM
  cache : StmtCache
  networkIssued : Bool
deriving Repr, DecidableEq

/-- getAllSavedStatements from the statements module (lines 120-140): serve
from the cache when it is populated, fresh, and no forced refresh was
requested; otherwise fetch, map the documents, and cache them; on any fetch
failure resolve with (and cache) the mock statements instead of rejecting. -/
def getAllSavedStatements (isoAt : ℕ → String) (nowIso : String)
    (forceRefresh : Bool) (now : ℤ) (http : FetchOutcome)
    (cache : StmtCache) : FetchResult :=
  if forceRefresh = false ∧ cache.data.isSome ∧ now - cache.timestamp < CACHE_TTL then
    { statements := cache.data.getD [], cache := cache, networkIssued := false }
  else
    match http with
    | .success docs =>
      let mapped := docs.map (mapDbToParseResult nowIso)
      { statements := mapped, cache := ⟨some mapped, now⟩, networkIssued := true }
    | .failure =>
      { statements := MOCK_STATEMENTS isoAt
        cache := ⟨some (MOCK_STATEMENTS isoAt), now⟩
        networkIssued := true }

/-- addStatementToCache from the statements module (lines 171-184): start a
fresh one-element cache when empty; otherwise replace the first entry with
the same job_id in place (findIndex then assignment), or unshift the new
statement to the front. -/
def addStatementToCache (s : ParseResultM) (now : ℤ) (cache : StmtCache) : StmtCache :=
  match cache.data with
  | none => ⟨some [s], now⟩
  | some l =>
    match l.findIdx? (fun t => t.job_id == s.job_id) with
    | some i => ⟨some (l.set i s), now⟩
    | none => ⟨some (s :: l), now⟩

/-! ## pollJobStatus, from frontend/lib/api.ts (lines 67-103)

The loop makes at most maxAttempts iterations, each performing one
getJobStatus call.  A completed status with a result returns it; a failed
status throws (and that throw is caught by the loop's own catch, which
rethrows only on the final attempt and otherwise retries); a getJobStatus
rejection is handled by the same catch.  The backoff delay is multiplied by
1.5 and capped at 5000 ms after each successful non-terminal check.  The
while-loop guard `attempts < maxAttempts` with attempts incremented each
iteration is embedded as structural recursion on the remaining iteration
count fuel = maxAttempts - attempts. -/

/-- What one getJobStatus call yields at a given attempt index: a resolved
JobStatusResponse (status string plus optional result), or a rejection
carrying the thrown error's message. -/
inductive StatusOutcome where
  | ok (status : String) (result : Option ParseResultM)
  | err (msg : String)
deriving Repr, DecidableEq

/-- Observable outcome of pollJobStatus: the returned ParseResult, or the
message of the thrown error. -/
inductive PollOutcome where
  | ret (r : ParseResultM)
  | threw (msg : String)
deriving Repr, DecidableEq

/-- The message thrown on a failed status:
`status.result?.error || 'Parsing failed'` (api.ts line 84). -/
def failedMsg (result : Option ParseResultM) : String :=
  (firstTruthy [result.bind ParseResultM.error]).getD "Parsing failed"

/-- The timeout error thrown when the attempt budget is exhausted. -/
def timeoutMsg : String := "Polling timeout: Job took too long to complete"

/-- The polling loop of pollJobStatus.  env gives the outcome of each
attempt's status check; attempts is the loop counter; fuel is the remaining
iteration count maxAttempts - attempts.  Returns the outcome, the number of
getJobStatus calls made, and the list of backoff delays awaited (ms). -/
def pollLoop (env : ℕ → StatusOutcome) (maxAttempts : ℕ) :
    ℕ → ℕ → ℚ → PollOutcome × ℕ × List ℚ
  | 0, _, _ => (.threw timeoutMsg, 0, [])
  | fuel + 1, attempts, delay =>
    match env attempts with
    | .ok st res =>
      if st = "completed" ∧ res.isSome then
        (.ret (res.getD default), 1, [])
      else if st = "failed" then
        if attempts = maxAttempts - 1 then (.threw (failedMsg res), 1, [])
        else
          let rest := pollLoop env maxAttempts fuel (attempts + 1) delay
          (rest.1, rest.2.1 + 1, delay :: rest.2.2)
      else
        let rest := pollLoop env maxAttempts fuel (attempts + 1) (min (delay * 3 / 2) 5000)
        (rest.1, rest.2.1 + 1, delay :: rest.2.2)
    | .err msg =>
      if attempts = maxAttempts - 1 then (.threw msg, 1, [])
      else
        let rest := pollLoop env maxAttempts fuel (attempts + 1) delay
        (rest.1, rest.2.1 + 1, delay :: rest.2.2)

/-- pollJobStatus with its defaults maxAttempts = 30, initialDelay = 1000. -/
def pollJobStatus (env : ℕ → StatusOutcome) (maxAttempts : ℕ := 30)
    (initialDelay : ℚ := 1000) : PollOutcome × ℕ × List ℚ :=
  pollLoop env maxAttempts maxAttempts 0 initialDelay

/-- The error message an attempt would surface from the loop, if any: the
failed-job message for a failed status, the rejection message for a failed
status check, nothing for a completed or processing status. -/
def errMsgAt (env : ℕ → StatusOutcome) (k : ℕ) : Option String :=
  match env k with
  | .ok st res => if st = "failed" then some (failedMsg res) else none
  | .err m => some m

/-! ## Upload entry points, from frontend/lib/api.ts

uploadStatement (lines 16-29) posts one file to /api/v1/parse/upload;
uploadBatchStatements (lines 124-148) appends every file of the list to one
FormData and posts it in a single request to /api/v1/parse/batch. -/

/-- An HTTP upload request: target URL and the files carried by the form. -/
structure HttpRequest where
  url : String
  files : List String
deriving Repr, DecidableEq

/-- The request uploadStatement issues for one file. -/
def uploadStatementRequest (baseUrl : String) (file : String) : HttpRequest :=
  { url := baseUrl ++ "/api/v1/parse/upload", files := [file] }

/-- The single request uploadBatchStatements issues for a file list. -/
def uploadBatchStatementsRequest (baseUrl : String) (files : List String) : HttpRequest :=
  { url := baseUrl ++ "/api/v1/parse/batch", files := files }

/-! ## Confidence scorer

Modelled from the spec: the Confidence Scorer and Result Assembler live in
the Python backend, which is absent from the repository snapshot (only its
README is present), so section 4.5 of the specification is embedded
directly: overall confidence is a weighted average over the required fields
(weights configurable, default equal), further capped by the engine quality
score and by the issuer-classification confidence, with an UNKNOWN issuer
capping overall confidence at the fixed ceiling 0.4; optional fields do not
enter the overall score, so their absence does not penalize it. -/

/-- Modelled from the spec: the issuer enumeration of the issuer detector
(section 3, IssuerClassification). -/
inductive Issuer where
  | KOTAK | HDFC | ICICI | AMEX | CAPITAL_ONE | UNKNOWN
deriving Repr, DecidableEq

/-- Modelled from the spec: the inputs the confidence scorer aggregates -
per-required-field (weight, confidence) pairs, the confidences of the
successfully extracted optional fields, the engine quality score, and the
classified issuer. -/
structure ScorerInput where
  requiredFields : List (ℚ × ℚ)
  optionalConfs : List ℚ
  engineQuality : ℚ
  issuer : Issuer
deriving Repr, DecidableEq

/-- Modelled from the spec: the fixed low ceiling an UNKNOWN issuer imposes
on overall confidence (0.4), no cap otherwise. -/
def issuerConfidenceCap : Issuer → ℚ
  | .UNKNOWN => 2 / 5
  | _ => 1

/-- Modelled from the spec: weighted average of (weight, confidence) pairs;
zero when no weight is present. -/
def weightedAverage (ws : List (ℚ × ℚ)) : ℚ :=
  let tw := (ws.map Prod.fst).sum
  if tw = 0 then 0 else (ws.map (fun p => p.1 * p.2)).sum / tw

/-- Modelled from the spec: overall confidence = weighted average over the
required fields, capped by the engine quality score and by the issuer
classification's ceiling. -/
def overallConfidence (inp : ScorerInput) : ℚ :=
  min (min (weightedAverage inp.requiredFields) inp.engineQuality)
    (issuerConfidenceCap inp.issuer)

/-- Modelled from the spec: the same document's ParseResult after one more
optional field was successfully extracted - only the optional-field
confidences change. -/
def addOptionalField (c : ℚ) (inp : ScorerInput) : ScorerInput :=
  { inp with optionalConfs := c :: inp.optionalConfs }

end SureFinancial

namespace SureFinancial

/-- C5: for every file handed to onDrop, an upload is issued iff the file is
an application/pdf of at most 10*1024*1024 bytes; otherwise the error
callback fires and no upload request is made. -/
theorem onDrop_validates (files : List FileInfo) (f : FileInfo)
    (h : files.head? = some f) :
    (onDrop files = DropAction.upload f ↔
      (f.type = "application/pdf" ∧ f.size ≤ 10 * 1024 * 1024)) ∧
    (¬ (f.type = "application/pdf" ∧ f.size ≤ 10 * 1024 * 1024) →
      (∀ g, onDrop files ≠ DropAction.upload g) ∧
      (onDrop files = DropAction.error "Only PDF files are supported" ∨
       onDrop files = DropAction.error "File size must be less than 10MB")) := by
  match files, h with
  | f :: rest, h =>
    simp only [List.head?_cons, Option.some.injEq] at h
    subst h
    by_cases ht : f.type = "application/pdf"
    · by_cases hs : f.size ≤ 10 * 1024 * 1024
      · constructor
        · constructor
          · intro _; exact ⟨ht, hs⟩
          · intro _; simp [onDrop, ht, Nat.not_lt.mpr hs]
        · intro hc; exact absurd ⟨ht, hs⟩ hc
      · constructor
        · simp [onDrop, ht, Nat.lt_of_not_le hs]
        · intro _
          constructor
          · intro g
            simp [onDrop, ht, Nat.lt_of_not_le hs]
          · right
            simp [onDrop, ht, Nat.lt_of_not_le hs]
    · constructor
      · simp [onDrop, ht]
      · intro _
        constructor
        · intro g
          simp [onDrop, ht]
        · left
          simp [onDrop, ht]

/-- Witness for C5: a 1-byte PDF file is uploaded; the hypothesis is
discharged at a concrete singleton list. -/
theorem onDrop_validates_witness :
    [(⟨"application/pdf", 1⟩ : FileInfo)].head? = some ⟨"application/pdf", 1⟩ ∧
    (onDrop [⟨"application/pdf", 1⟩] = DropAction.upload ⟨"application/pdf", 1⟩ ↔
      (("application/pdf" : String) = "application/pdf" ∧ (1 : ℕ) ≤ 10 * 1024 * 1024)) :=
  ⟨rfl, (onDrop_validates [⟨"application/pdf", 1⟩] ⟨"application/pdf", 1⟩ rfl).1⟩

/-- Any field object produced by the nested-document branch of
mapDbToParseResult carries a non-null value and no confidence member. -/
theorem mkValueField_spec (v : Option String) (f : FieldM)
    (h : mkValueField v = some f) : f.value ≠ none ∧ f.confidence = none := by
  cases v with
  | none => simp [mkValueField, strTruthy] at h
  | some s =>
    by_cases hs : s = ""
    · simp [mkValueField, strTruthy, hs] at h
    · simp [mkValueField, strTruthy, hs] at h
      subst h
      simp

/-- C1 counterexample: the built-in mock statements store the confidence 95,
which is not a fraction in [0,1]; confidences are therefore kept on a 0-100
scale inside the statements module, refuting the claim that no component
stores confidences on a 0-100 scale. -/
theorem confidence_scale_counterexample :
    (95 : ℚ) ∈ ((MOCK_STATEMENTS (fun _ => "")).map confidencesOf).flatten ∧
    ¬ ((95 : ℚ) ≤ 1) := by
  constructor
  · decide
  · norm_num

/-- The confidence values stored by the five mock statements, by statement;
created_at is never inspected, so this holds definitionally for any clock. -/
theorem confidencesOf_mock (isoAt : ℕ → String) :
    (MOCK_STATEMENTS isoAt).map confidencesOf =
      [[95, 90, 90, 92, 94], [98, 95, 97, 96, 97], [92, 93, 94, 91, 92],
       [96, 97, 98, 95, 96], [94, 91, 92, 93, 93]] := rfl

/-- C1 amended: the results display converts a stored confidence to its
external percentage display by multiplying by 100, but every confidence
stored in the built-in mock statement list already lies on a 0-100 scale
(strictly above 1 and at most 100), so confidences are not kept as 0-1
fractions everywhere inside the system. -/
theorem confidence_scale_amended (isoAt : ℕ → String) (r : ParseResultM)
    (hr : r ∈ MOCK_STATEMENTS isoAt) (c : ℚ) (hc : c ∈ confidencesOf r) :
    1 < c ∧ c ≤ 100 ∧ displayPercent c = c * 100 := by
  have hm : confidencesOf r ∈ (MOCK_STATEMENTS isoAt).map confidencesOf :=
    List.mem_map_of_mem _ hr
  rw [confidencesOf_mock] at hm
  simp only [List.mem_cons, List.not_mem_nil, or_false] at hm
  rcases hm with hm | hm | hm | hm | hm <;>
    (rw [hm] at hc;
     simp only [List.mem_cons, List.not_mem_nil, or_false] at hc;
     rcases hc with rfl | rfl | rfl | rfl | rfl <;> norm_num [displayPercent])

/-- Witness for C1 amended: the first mock statement's card_number
confidence 95 satisfies the 0-100-scale bounds. -/
theorem confidence_scale_amended_witness :
    1 < (95 : ℚ) ∧ (95 : ℚ) ≤ 100 ∧ displayPercent 95 = 95 * 100 :=
  confidence_scale_amended (fun _ => "")
    { job_id := "job_1", status := "completed", card_issuer := some "Axis Bank",
      card_number := some ⟨some "9410", some 95, none⟩,
      statement_date := some ⟨some "2024-08-16", some 90, none⟩,
      total_amount_due := some ⟨some "INR 40,491.00", some 92, none⟩,
      payment_due_date := some ⟨some "2024-10-05", some 90, none⟩,
      confidence_scores := some ⟨94⟩, created_at := some "" }
    (by decide) 95 (by decide)

/-- C2 counterexample: mapDbToParseResult passes raw_data field objects
through unchanged, so a stored document whose card_number has a null value
but confidence 50 is mapped to a ParseResult violating the invariant
(confidence equals 0 iff value is null). -/
theorem field_invariant_counterexample :
    (mapDbToParseResult "now"
        { raw_data := some { card_number := some ⟨none, some 50, none⟩ } }).card_number
      = some ⟨none, some 50, none⟩ ∧
    ¬ fieldInv ⟨none, some 50, none⟩ := by
  constructor
  · rfl
  · decide

/-- The field slots of the five mock statements, by statement; created_at is
never inspected, so this holds definitionally for any clock. -/
theorem resultFields_mock (isoAt : ℕ → String) :
    (MOCK_STATEMENTS isoAt).map resultFields =
      [ [some ⟨some "9410", some 95, none⟩, some ⟨some "2024-08-16", some 90, none⟩,
         some ⟨some "2024-10-05", some 90, none⟩, some ⟨some "INR 40,491.00", some 92, none⟩],
        [some ⟨some "4567", some 98, none⟩, some ⟨some "2024-07-20", some 95, none⟩,
         some ⟨some "2024-08-15", some 97, none⟩, some ⟨some "INR 12,350.00", some 96, none⟩],
        [some ⟨some "7890", some 92, none⟩, some ⟨some "2024-09-01", some 93, none⟩,
         some ⟨some "2024-09-25", some 94, none⟩, some ⟨some "INR 8,745.50", some 91, none⟩],
        [some ⟨some "1234", some 96, none⟩, some ⟨some "2024-08-05", some 97, none⟩,
         some ⟨some "2024-08-28", some 98, none⟩, some ⟨some "INR 22,680.75", some 95, none⟩],
        [some ⟨some "5678", some 94, none⟩, some ⟨some "2024-07-10", some 91, none⟩,
         some ⟨some "2024-08-05", some 92, none⟩, some ⟨some "INR 15,320.25", some 93, none⟩] ] := rfl

/-- C2 amended: the invariant (confidence equals 0 iff value is null) holds
for every field of the built-in mock statements, and the nested-document
branch of mapDbToParseResult only ever creates a field with a non-null value
and no confidence member; the raw_data branch passes fields through
unverified, so the invariant is not enforced for stored raw results. -/
theorem field_invariant_amended :
    (∀ (isoAt : ℕ → String) (r : ParseResultM), r ∈ MOCK_STATEMENTS isoAt →
      ∀ f : FieldM, some f ∈ resultFields r → fieldInv f) ∧
    (∀ (nowIso : String) (doc : DbDoc), doc.raw_data = none →
      ∀ f : FieldM, some f ∈ resultFields (mapDbToParseResult nowIso doc) →
        f.value ≠ none ∧ f.confidence = none) := by
  constructor
  · intro isoAt r hr f hf
    have hm : resultFields r ∈ (MOCK_STATEMENTS isoAt).map resultFields :=
      List.mem_map_of_mem _ hr
    rw [resultFields_mock] at hm
    simp only [List.mem_cons, List.not_mem_nil, or_false] at hm
    rcases hm with hm | hm | hm | hm | hm <;>
      (rw [hm] at hf;
       simp only [List.mem_cons, List.not_mem_nil, or_false,
         Option.some.injEq] at hf;
       rcases hf with rfl | rfl | rfl | rfl <;> decide)
  · intro nowIso doc h f hf
    simp only [mapDbToParseResult, h, resultFields, List.mem_cons,
      List.not_mem_nil, or_false] at hf
    rcases hf with hf | hf | hf | hf <;>
      exact mkValueField_spec _ _ hf.symm

/-- Witness for C2 amended: a nested-shape document carrying only a
card_number value maps to a field with a non-null value and no confidence. -/
theorem field_invariant_amended_witness :
    (⟨some "1234", none, none⟩ : FieldM).value ≠ none ∧
    (⟨some "1234", none, none⟩ : FieldM).confidence = none :=
  field_invariant_amended.2 ""
    { data := some { card_number := some "1234" } } rfl
    ⟨some "1234", none, none⟩ (by decide)

/-- C3: any document whose issuer classification fails (UNKNOWN issuer)
receives an overall confidence of at most 0.4, regardless of the individual
field confidences, the weights, and the engine quality. -/
theorem unknown_issuer_caps_overall (inp : ScorerInput)
    (h : inp.issuer = Issuer.UNKNOWN) : overallConfidence inp ≤ 2 / 5 := by
  calc overallConfidence inp
      ≤ issuerConfidenceCap inp.issuer := min_le_right _ _
    _ = 2 / 5 := by rw [h]; rfl

/-- Witness for C3: a scorer input with perfect field confidences and
quality but UNKNOWN issuer scores at most 0.4. -/
theorem unknown_issuer_caps_overall_witness :
    overallConfidence ⟨[(1, 1), (1, 1), (1, 1), (1, 1)], [1], 1, Issuer.UNKNOWN⟩ ≤ 2 / 5 :=
  unknown_issuer_caps_overall ⟨[(1, 1), (1, 1), (1, 1), (1, 1)], [1], 1, Issuer.UNKNOWN⟩ rfl

/-- C4: overall confidence is monotone in extracted optional fields: for
two ParseResults of the same document differing only in one additional
successfully extracted optional field, the second's overall confidence is
greater than or equal to the first's (optional fields never enter the
required-field weighted average, so the score is in fact unchanged). -/
theorem overall_monotone_in_optional_field (inp : ScorerInput) (c : ℚ) :
    overallConfidence inp ≤ overallConfidence (addOptionalField c inp) :=
  le_of_eq rfl

/-- C6 counterexample: processing the two files a.pdf and b.pdf through
uploadBatchStatements issues a single request to the dedicated
/api/v1/parse/batch endpoint carrying both files - not the two
single-document /api/v1/parse/upload requests the claim describes. -/
theorem batch_primitive_counterexample :
    (uploadBatchStatementsRequest "http://localhost:8000" ["a.pdf", "b.pdf"]).files.length = 2 ∧
    (uploadBatchStatementsRequest "http://localhost:8000" ["a.pdf", "b.pdf"]).url
      ≠ (uploadStatementRequest "http://localhost:8000" "a.pdf").url ∧
    [uploadBatchStatementsRequest "http://localhost:8000" ["a.pdf", "b.pdf"]]
      ≠ ["a.pdf", "b.pdf"].map (uploadStatementRequest "http://localhost:8000") := by
  refine ⟨rfl, ?_, ?_⟩ <;> decide

/-- C6 amended: the API module does expose a dedicated multi-file batch
primitive: uploadBatchStatements submits all N files through one request to
the /parse/batch endpoint, which is distinct from the single-document
/parse/upload endpoint, for every base URL. -/
theorem batch_primitive_amended (baseUrl file : String) (files : List String) :
    (uploadBatchStatementsRequest baseUrl files).files = files ∧
    (uploadBatchStatementsRequest baseUrl files).url
      ≠ (uploadStatementRequest baseUrl file).url := by
  refine ⟨rfl, fun hEq => ?_⟩
  simp only [uploadBatchStatementsRequest, uploadStatementRequest] at hEq
  have hd := congrArg String.data hEq
  rw [String.data_append, String.data_append] at hd
  exact absurd (String.ext (List.append_cancel_left hd)) (by decide)

/-- C9: getAllSavedStatements never rejects: when called without
forceRefresh while the cache is populated and younger than CACHE_TTL it
resolves with the cached list and issues no network request; otherwise it
issues the request and resolves with the mapped server documents on success,
or with the built-in five-entry mock statement list (which it also caches)
on any failure. -/
theorem getAllSavedStatements_spec (isoAt : ℕ → String) (nowIso : String)
    (forceRefresh : Bool) (now : ℤ) (http : FetchOutcome) (cache : StmtCache) :
    (∀ l, forceRefresh = false → cache.data = some l →
      now - cache.timestamp < CACHE_TTL →
      getAllSavedStatements isoAt nowIso forceRefresh now http cache
        = ⟨l, cache, false⟩) ∧
    (∀ docs,
      ¬ (forceRefresh = false ∧ cache.data.isSome ∧ now - cache.timestamp < CACHE_TTL) →
      http = FetchOutcome.success docs →
      getAllSavedStatements isoAt nowIso forceRefresh now http cache
        = ⟨docs.map (mapDbToParseResult nowIso),
           ⟨some (docs.map (mapDbToParseResult nowIso)), now⟩, true⟩) ∧
    (¬ (forceRefresh = false ∧ cache.data.isSome ∧ now - cache.timestamp < CACHE_TTL) →
      http = FetchOutcome.failure →
      getAllSavedStatements isoAt nowIso forceRefresh now http cache
        = ⟨MOCK_STATEMENTS isoAt, ⟨some (MOCK_STATEMENTS isoAt), now⟩, true⟩ ∧
      (MOCK_STATEMENTS isoAt).length = 5) := by
  refine ⟨?_, ?_, ?_⟩
  · intro l hf hd hlt
    rw [getAllSavedStatements.eq_def, if_pos ⟨hf, by simp [hd], hlt⟩]
    simp [hd]
  · intro docs hcond hh
    subst hh
    rw [getAllSavedStatements.eq_def, if_neg hcond]
  · intro hcond hh
    subst hh
    rw [getAllSavedStatements.eq_def, if_neg hcond]
    exact ⟨rfl, rfl⟩

/-- Witness for C9: with an empty cache and a failing fetch, the call
resolves with the five mock statements and caches them. -/
theorem getAllSavedStatements_spec_witness :
    getAllSavedStatements (fun _ => "") "" false 0 FetchOutcome.failure ⟨none, 0⟩
      = ⟨MOCK_STATEMENTS (fun _ => ""),
         ⟨some (MOCK_STATEMENTS (fun _ => "")), 0⟩, true⟩ ∧
    (MOCK_STATEMENTS (fun _ => "")).length = 5 :=
  (getAllSavedStatements_spec (fun _ => "") "" false 0 FetchOutcome.failure
    ⟨none, 0⟩).2.2 (by simp) rfl

/-- C10: addStatementToCache preserves job_id uniqueness: if the cache held
at most one entry with the added statement's job_id, afterwards the cache is
populated and holds exactly one entry with that job_id (the matching entry
was replaced, or the statement was prepended); every prior entry with a
different job_id is retained, and nothing beyond the added statement and the
prior entries appears. -/
theorem addStatementToCache_spec (s : ParseResultM) (now : ℤ) (cache : StmtCache)
    (h : ∀ l, cache.data = some l →
      l.countP (fun t => t.job_id == s.job_id) ≤ 1) :
    ∃ l', (addStatementToCache s now cache).data = some l' ∧
      l'.countP (fun t => t.job_id == s.job_id) = 1 ∧
      (∀ t ∈ cache.data.getD [], t.job_id ≠ s.job_id → t ∈ l') ∧
      (∀ t ∈ l', t = s ∨ t ∈ cache.data.getD []) := by
  have hps : (s.job_id == s.job_id) = true := by simp
  cases hd : cache.data with
  | none =>
    refine ⟨[s], by simp [addStatementToCache, hd], ?_, ?_, ?_⟩
    · simp [List.countP_cons]
    · simp [hd]
    · intro t ht
      simp only [List.mem_singleton] at ht
      exact Or.inl ht
  | some l =>
    have hcount := h l hd
    cases hfi : l.findIdx? (fun t => t.job_id == s.job_id) with
    | some i =>
      obtain ⟨hlt, hidx⟩ := List.findIdx?_eq_some_iff_findIdx_eq.mp hfi
      have hpi : (l[i].job_id == s.job_id) = true := by
        subst hidx
        simpa using List.findIdx_getElem (w := hlt)
      refine ⟨l.set i s, by simp [addStatementToCache, hd, hfi], ?_, ?_, ?_⟩
      · rw [List.countP_set _ _ _ _ hlt]
        have hpos : 0 < l.countP (fun t => t.job_id == s.job_id) :=
          List.countP_pos.mpr ⟨l[i], List.getElem_mem hlt, hpi⟩
        simp only [hpi, hps, if_true]
        omega
      · intro t ht hne
        simp only [hd, Option.getD_some] at ht
        rw [List.mem_iff_getElem] at ht
        obtain ⟨j, hj, rfl⟩ := ht
        by_cases hij : j = i
        · exfalso
          subst hij
          exact hne (by simpa using hpi)
        · have hj' : j < (l.set i s).length := by
            rw [List.length_set]; exact hj
          have hjs : (l.set i s)[j] = l[j] := by
            rw [List.getElem_set, if_neg (fun hc => hij hc.symm)]
          rw [← hjs]
          exact List.getElem_mem hj'
      · intro t ht
        rcases List.mem_or_eq_of_mem_set ht with h1 | h1
        · exact Or.inr (by simpa [hd] using h1)
        · exact Or.inl h1
    | none =>
      have hall := List.findIdx?_eq_none_iff.mp hfi
      refine ⟨s :: l, by simp [addStatementToCache, hd, hfi], ?_, ?_, ?_⟩
      · rw [List.countP_cons]
        have hz : l.countP (fun t => t.job_id == s.job_id) = 0 :=
          List.countP_eq_zero.mpr (fun a ha => by simp [hall a ha])
        simp [hz]
      · intro t ht hne
        exact List.mem_cons_of_mem _ (by simpa [hd] using ht)
      · intro t ht
        rcases List.mem_cons.mp ht with rfl | h1
        · exact Or.inl rfl
        · exact Or.inr (by simpa [hd] using h1)

/-- Witness for C10: adding a statement to the empty cache yields a cache
holding exactly one entry with its job_id. -/
theorem addStatementToCache_spec_witness :
    ((addStatementToCache { job_id := "j", status := "completed" } 0
        ⟨none, 0⟩).data.getD []).countP
      (fun t => t.job_id == ({ job_id := "j", status := "completed" } : ParseResultM).job_id) = 1 := by
  obtain ⟨l', h1, h2, -, -⟩ :=
    addStatementToCache_spec { job_id := "j", status := "completed" } 0 ⟨none, 0⟩
      (fun l hl => by cases hl)
  rw [h1]
  simpa using h2

/-- Invariant of the polling loop: starting with a backoff of at most
5000 ms, the loop performs at most fuel further status checks, every awaited
delay is at most 5000 ms, and the outcome is the timeout throw, the result
of a completed status among the remaining attempts, or the error message one
of the remaining attempts surfaces. -/
theorem pollLoop_spec (env : ℕ → StatusOutcome) (maxAttempts : ℕ) :
    ∀ (fuel attempts : ℕ) (delay : ℚ), delay ≤ 5000 →
      (pollLoop env maxAttempts fuel attempts delay).2.1 ≤ fuel ∧
      (∀ d ∈ (pollLoop env maxAttempts fuel attempts delay).2.2, d ≤ 5000) ∧
      ((pollLoop env maxAttempts fuel attempts delay).1 = .threw timeoutMsg ∨
       (∃ k r, attempts ≤ k ∧ k < attempts + fuel ∧
          env k = .ok "completed" (some r) ∧
          (pollLoop env maxAttempts fuel attempts delay).1 = .ret r) ∨
       (∃ k m, attempts ≤ k ∧ k < attempts + fuel ∧
          (pollLoop env maxAttempts fuel attempts delay).1 = .threw m ∧
          errMsgAt env k = some m)) := by
  intro fuel
  induction fuel with
  | zero =>
    intro attempts delay hdel
    refine ⟨le_refl 0, ?_, Or.inl rfl⟩
    intro d hd
    simp [pollLoop] at hd
  | succ fuel ih =>
    intro attempts delay hdel
    cases henv : env attempts with
    | ok st res =>
      by_cases hc : st = "completed" ∧ res.isSome
      · obtain ⟨hst, hrs⟩ := hc
        obtain ⟨r, hr⟩ := Option.isSome_iff_exists.mp hrs
        subst hst
        subst hr
        have hpl : pollLoop env maxAttempts (fuel + 1) attempts delay
            = (.ret r, 1, []) := by
          simp [pollLoop, henv]
        rw [hpl]
        exact ⟨by simp, by simp,
          Or.inr (Or.inl ⟨attempts, r, le_refl _, by omega, henv, rfl⟩)⟩
      · by_cases hf : st = "failed"
        · subst hf
          by_cases hlast : attempts = maxAttempts - 1
          · have hpl : pollLoop env maxAttempts (fuel + 1) attempts delay
                = (.threw (failedMsg res), 1, []) := by
              subst hlast
              simp [pollLoop, henv, hc]
            rw [hpl]
            refine ⟨by simp, by simp,
              Or.inr (Or.inr ⟨attempts, failedMsg res, le_refl _, by omega, rfl, ?_⟩)⟩
            simp [errMsgAt, henv]
          · have hpl1 : (pollLoop env maxAttempts (fuel + 1) attempts delay).2.1
                = (pollLoop env maxAttempts fuel (attempts + 1) delay).2.1 + 1 := by
              simp [pollLoop, henv, hc, hlast]
            have hpl2 : (pollLoop env maxAttempts (fuel + 1) attempts delay).2.2
                = delay :: (pollLoop env maxAttempts fuel (attempts + 1) delay).2.2 := by
              simp [pollLoop, henv, hc, hlast]
            have hpl0 : (pollLoop env maxAttempts (fuel + 1) attempts delay).1
                = (pollLoop env maxAttempts fuel (attempts + 1) delay).1 := by
              simp [pollLoop, henv, hc, hlast]
            obtain ⟨ih1, ih2, ih3⟩ := ih (attempts + 1) delay hdel
            refine ⟨by rw [hpl1]; omega, ?_, ?_⟩
            · rw [hpl2]
              intro d hd
              rcases List.mem_cons.mp hd with rfl | hd2
              · exact hdel
              · exact ih2 d hd2
            · rw [hpl0]
              rcases ih3 with h3 | ⟨k, r, hk1, hk2, hk3, hk4⟩ | ⟨k, m, hk1, hk2, hk3, hk4⟩
              · exact Or.inl h3
              · exact Or.inr (Or.inl ⟨k, r, by omega, by omega, hk3, hk4⟩)
              · exact Or.inr (Or.inr ⟨k, m, by omega, by omega, hk3, hk4⟩)
        · have hdel2 : min (delay * 3 / 2) 5000 ≤ 5000 := min_le_right _ _
          have hpl1 : (pollLoop env maxAttempts (fuel + 1) attempts delay).2.1
              = (pollLoop env maxAttempts fuel (attempts + 1)
                  (min (delay * 3 / 2) 5000)).2.1 + 1 := by
            simp [pollLoop, henv, hc, hf]
          have hpl2 : (pollLoop env maxAttempts (fuel + 1) attempts delay).2.2
              = delay :: (pollLoop env maxAttempts fuel (attempts + 1)
                  (min (delay * 3 / 2) 5000)).2.2 := by
            simp [pollLoop, henv, hc, hf]
          have hpl0 : (pollLoop env maxAttempts (fuel + 1) attempts delay).1
              = (pollLoop env maxAttempts fuel (attempts + 1)
                  (min (delay * 3 / 2) 5000)).1 := by
            simp [pollLoop, henv, hc, hf]
          obtain ⟨ih1, ih2, ih3⟩ := ih (attempts + 1) (min (delay * 3 / 2) 5000) hdel2
          refine ⟨by rw [hpl1]; omega, ?_, ?_⟩
          · rw [hpl2]
            intro d hd
            rcases List.mem_cons.mp hd with rfl | hd2
            · exact hdel
            · exact ih2 d hd2
          · rw [hpl0]
            rcases ih3 with h3 | ⟨k, r, hk1, hk2, hk3, hk4⟩ | ⟨k, m, hk1, hk2, hk3, hk4⟩
            · exact Or.inl h3
            · exact Or.inr (Or.inl ⟨k, r, by omega, by omega, hk3, hk4⟩)
            · exact Or.inr (Or.inr ⟨k, m, by omega, by omega, hk3, hk4⟩)
    | err msg =>
      by_cases hlast : attempts = maxAttempts - 1
      · have hpl : pollLoop env maxAttempts (fuel + 1) attempts delay
            = (.threw msg, 1, []) := by
          subst hlast
          simp [pollLoop, henv]
        rw [hpl]
        refine ⟨by simp, by simp,
          Or.inr (Or.inr ⟨attempts, msg, le_refl _, by omega, rfl, ?_⟩)⟩
        simp [errMsgAt, henv]
      · have hpl1 : (pollLoop env maxAttempts (fuel + 1) attempts delay).2.1
            = (pollLoop env maxAttempts fuel (attempts + 1) delay).2.1 + 1 := by
          simp [pollLoop, henv, hlast]
        have hpl2 : (pollLoop env maxAttempts (fuel + 1) attempts delay).2.2
            = delay :: (pollLoop env maxAttempts fuel (attempts + 1) delay).2.2 := by
          simp [pollLoop, henv, hlast]
        have hpl0 : (pollLoop env maxAttempts (fuel + 1) attempts delay).1
            = (pollLoop env maxAttempts fuel (attempts + 1) delay).1 := by
          simp [pollLoop, henv, hlast]
        obtain ⟨ih1, ih2, ih3⟩ := ih (attempts + 1) delay hdel
        refine ⟨by rw [hpl1]; omega, ?_, ?_⟩
        · rw [hpl2]
          intro d hd
          rcases List.mem_cons.mp hd with rfl | hd2
          · exact hdel
          · exact ih2 d hd2
        · rw [hpl0]
          rcases ih3 with h3 | ⟨k, r, hk1, hk2, hk3, hk4⟩ | ⟨k, m, hk1, hk2, hk3, hk4⟩
          · exact Or.inl h3
          · exact Or.inr (Or.inl ⟨k, r, by omega, by omega, hk3, hk4⟩)
          · exact Or.inr (Or.inr ⟨k, m, by omega, by omega, hk3, hk4⟩)

/-- C8 counterexample: when every status check rejects (say with a network
error), pollJobStatus terminates by rethrowing that rejection on the final
attempt - an outcome that is neither a completed result, nor the failed
job's error (no job failure ever occurred, and the message differs from the
failed-status default), nor the polling-timeout error. -/
theorem pollJobStatus_counterexample :
    (pollJobStatus (fun _ => StatusOutcome.err "network down") 30 1000).1
      = PollOutcome.threw "network down" ∧
    "network down" ≠ timeoutMsg ∧
    "network down" ≠ "Parsing failed" := by
  refine ⟨rfl, by decide, by decide⟩

/-- C8 amended: pollJobStatus always terminates, performing at most
maxAttempts status checks with every inter-poll delay at most 5000 ms (given
an initial delay of at most 5000 ms, as the default 1000 is), and it either
returns a completed result, throws the polling-timeout error once the
attempt budget is exhausted, or rethrows the error surfaced by some attempt
(the failed job's error, or the status-check failure itself). -/
theorem pollJobStatus_amended (env : ℕ → StatusOutcome) (maxAttempts : ℕ)
    (initialDelay : ℚ) (h : initialDelay ≤ 5000) :
    (pollJobStatus env maxAttempts initialDelay).2.1 ≤ maxAttempts ∧
    (∀ d ∈ (pollJobStatus env maxAttempts initialDelay).2.2, d ≤ 5000) ∧
    ((pollJobStatus env maxAttempts initialDelay).1 = .threw timeoutMsg ∨
     (∃ k r, k < maxAttempts ∧ env k = .ok "completed" (some r) ∧
        (pollJobStatus env maxAttempts initialDelay).1 = .ret r) ∨
     (∃ k m, k < maxAttempts ∧
        (pollJobStatus env maxAttempts initialDelay).1 = .threw m ∧
        errMsgAt env k = some m)) := by
  obtain ⟨h1, h2, h3⟩ := pollLoop_spec env maxAttempts maxAttempts 0 initialDelay h
  refine ⟨h1, h2, ?_⟩
  rcases h3 with h3 | ⟨k, r, _, hk2, hk3, hk4⟩ | ⟨k, m, _, hk2, hk3, hk4⟩
  · exact Or.inl h3
  · exact Or.inr (Or.inl ⟨k, r, by omega, hk3, hk4⟩)
  · exact Or.inr (Or.inr ⟨k, m, by omega, hk3, hk4⟩)

/-- Witness for C8 amended: with the default budget and initial delay, at
most 30 status checks are performed. -/
theorem pollJobStatus_amended_witness :
    (pollJobStatus (fun _ => StatusOutcome.ok "completed" (some default)) 30 1000).2.1 ≤ 30 :=
  (pollJobStatus_amended (fun _ => StatusOutcome.ok "completed" (some default)) 30 1000
    (by norm_num)).1

/-- C7: the rendered transaction table preserves document order: there is one
row per transaction and the i-th row displays exactly the i-th transaction of
the ParseResult's list; no re-sorting occurs. -/
theorem renderTransactionRows_preserves_order (ts : List TransactionM) :
    (renderTransactionRows ts).length = ts.length ∧
    ∀ i : ℕ, (renderTransactionRows ts).get? i = (ts.get? i).map transactionRow := by
  refine ⟨List.length_map _ _, fun i => ?_⟩
  simp [renderTransactionRows, List.get?_map]

end SureFinancial
